import Mathlib

/-!
Verification development for the InformationGainJungle training program
(`main.py`).  The training loop, model selection, gradient dispatch, loss
bookkeeping and the evaluation passes are shallowly embedded below; the
external collaborators (dataset, backbone model, optimizer, `wandb`) appear
as abstract parameters, and the repository modules that are not part of the
snapshot (`loss.scheduling`, `loss.information_gain`, `utils.helpers`) are
modelled from the specification, as marked in their doc comments.
Machine reals are modelled by `ℚ`.
-/

/-- Routing strategies (the `Routing` enumeration of `nets.model`).
`main.py` references `RANDOM_ROUTING` and `INFORMATION_GAIN_ROUTING`;
`noRouting` is the fixed non-adaptive strategy selected when routing is
disabled (modelled from the spec: the enumeration's source is not in the
snapshot, the spec lists "possibly others such as no routing"). -/
inductive Routing where
  | randomRouting
  | informationGainRouting
  | noRouting
  deriving DecidableEq, Repr

/-- The four model kinds recognised by the selection chain
(`main.py` lines 25-32). -/
inductive ModelKind where
  | resnet18
  | resnet18Slim
  | lenet
  | lenetSlim
  deriving DecidableEq, Repr

/-- Outcome of the model-selection chain: which model variant (if any) was
bound to the `model` name, and whether an exception was raised at the
selection site. -/
structure SelectOutcome where
  boundModel : Option ModelKind
  raisedError : Bool
  deriving DecidableEq, Repr

/-- Model selection, `main.py` lines 25-34.  The four recognised `MODEL`
values bind a model and raise nothing.  In the final `else` branch the source
evaluates `NotImplementedError()` as a bare expression: the exception object
is constructed but there is no `raise`, so no error is raised and `model`
stays unbound (`boundModel = none`, `raisedError = false`). -/
def selectModel (m : String) : SelectOutcome :=
  if m = "RESNET18" then ⟨some ModelKind.resnet18, false⟩
  else if m = "RESNET18_SLIM" then ⟨some ModelKind.resnet18Slim, false⟩
  else if m = "LENET" then ⟨some ModelKind.lenet, false⟩
  else if m = "LENET_SLIM" then ⟨some ModelKind.lenetSlim, false⟩
  else ⟨none, false⟩

/-- Parameters of one step-decay schedule (`loss.scheduling.StepDecay`,
instantiated at `main.py` lines 59-66).  Modelled from the spec: the
`loss.scheduling` module is not in the snapshot. -/
structure StepDecay where
  initialValue : ℚ
  decayRate : ℚ
  decayStep : ℕ
  deriving DecidableEq, Repr

/-- Modelled from the spec: `StepDecay.get_current_value` of the missing
`loss.scheduling` module — "value decays geometrically every `decay_step`
steps: `value = initial_value * decay_rate^floor(step / decay_step)`".
Natural-number division is the floor. -/
def StepDecay.getCurrentValue (sd : StepDecay) (step : ℕ) : ℚ :=
  sd.initialValue * sd.decayRate ^ (step / sd.decayStep)

/-- The model's trainable-parameter subsets: backbone blocks `F_0`-`F_3` and
routing heads `H_0`, `H_1`, as accessed by `main.py` lines 127-151.  `α` is
the abstract type of one subset's parameter values (the backbone is a black
box). -/
structure ModelParams (α : Type) where
  F0 : α
  F1 : α
  F2 : α
  F3 : α
  H0 : α
  H1 : α

/-- One `tape.gradient` / `optimizer.apply_gradients` pair as an abstract
per-subset parameter transformation (gradient computation and the Adam
optimizer are external collaborators).  `cls*` model the classification-loss
step on the backbone blocks (lines 132-133), `r0H0` / `r1H1` the routing-loss
steps on the heads (lines 139-151), `full*` the combined-loss step on the
full trainable set (lines 153-154). -/
structure OptStep (α : Type) where
  clsF0 : α → α
  clsF1 : α → α
  clsF2 : α → α
  clsF3 : α → α
  r0H0 : α → α
  r1H1 : α → α
  fullF0 : α → α
  fullF1 : α → α
  fullF2 : α → α
  fullF3 : α → α
  fullH0 : α → α
  fullH1 : α → α

/-- Which parameter set one `optimizer.apply_gradients` call targets. -/
inductive ApplyCall where
  | backboneSubset
  | headH0
  | headH1
  | fullModel
  deriving DecidableEq, Repr

/-- Lines 127-133: the classification-loss gradients are applied to the
backbone subset `F_0 ∪ F_1 ∪ F_2 ∪ F_3` only; the heads are not in the
zipped variable list. -/
def classificationUpdate {α : Type} (os : OptStep α) (p : ModelParams α) :
    ModelParams α :=
  { p with F0 := os.clsF0 p.F0, F1 := os.clsF1 p.F1,
           F2 := os.clsF2 p.F2, F3 := os.clsF3 p.F3 }

/-- Lines 139-144: the `routing_0_loss` gradients are applied to
`model.H_0.trainable_weights` only. -/
def routing0Update {α : Type} (os : OptStep α) (p : ModelParams α) :
    ModelParams α :=
  { p with H0 := os.r0H0 p.H0 }

/-- Lines 146-151: the `routing_1_loss` gradients are applied to
`model.H_1.trainable_weights` only. -/
def routing1Update {α : Type} (os : OptStep α) (p : ModelParams α) :
    ModelParams α :=
  { p with H1 := os.r1H1 p.H1 }

/-- Lines 153-154: the combined `loss_value` gradients are applied to the
full trainable-parameter set. -/
def fullUpdate {α : Type} (os : OptStep α) (p : ModelParams α) :
    ModelParams α :=
  ⟨os.fullF0 p.F0, os.fullF1 p.F1, os.fullF2 p.F2,
   os.fullF3 p.F3, os.fullH0 p.H0, os.fullH1 p.H1⟩

/-- Gradient dispatch, `main.py` lines 126-154.  Returns the updated
parameters and the ordered trace of `optimizer.apply_gradients` calls.
The inner condition re-tests `USE_ROUTING` exactly as line 136 does. -/
def applyGradientsPhase {α : Type} (os : OptStep α)
    (useRouting decoupleRoutingGradients : Bool) (currentRouting : Routing)
    (p : ModelParams α) : ModelParams α × List ApplyCall :=
  if useRouting && decoupleRoutingGradients then
    let p1 := classificationUpdate os p
    if useRouting = true ∧ currentRouting = Routing.informationGainRouting then
      (routing1Update os (routing0Update os p1),
       [ApplyCall.backboneSubset, ApplyCall.headH0, ApplyCall.headH1])
    else
      (p1, [ApplyCall.backboneSubset])
  else
    (fullUpdate os p, [ApplyCall.fullModel])

/-- Result of the loss computation inside the gradient tape
(`main.py` lines 91-124): the two routing losses, the total `loss_value`,
and the number of `information_gain_loss_fn` invocations performed. -/
structure LossResult where
  routing0Loss : ℚ
  routing1Loss : ℚ
  lossValue : ℚ
  igLossCalls : ℕ
  deriving DecidableEq, Repr

/-- Loss computation inside the tape, `main.py` lines 91-124.
`classificationLoss`, `igLoss0`, `igLoss1` are the values the external loss
functions return for this batch (black boxes); the `else` branch (lines
120-122) never consults `igLoss0` / `igLoss1` and performs no
information-gain computation, leaving both routing losses the literal `0`,
and line 124 forms `loss_value = classification + routing_0 + routing_1`. -/
def tapeLosses (useRouting : Bool) (currentRouting : Routing)
    (igLossWeight classificationLoss igLoss0 igLoss1 : ℚ) : LossResult :=
  if useRouting = true ∧ currentRouting = Routing.informationGainRouting then
    { routing0Loss := igLossWeight * igLoss0,
      routing1Loss := igLossWeight * igLoss1,
      lossValue := classificationLoss + igLossWeight * igLoss0
        + igLossWeight * igLoss1,
      igLossCalls := 2 }
  else
    { routing0Loss := 0, routing1Loss := 0,
      lossValue := classificationLoss + 0 + 0,
      igLossCalls := 0 }

/-- Training configuration keys the loop dispatch consumes directly. -/
structure Config where
  useRouting : Bool
  decoupleRoutingGradients : Bool
  deriving DecidableEq, Repr

/-- Which step-indexed collaborator a training step queries:
`current_learning_rate` (line 76), `routing_method` (line 79), and, when
routing is enabled, the weight / temperature / balance schedulers
(lines 81-85). -/
inductive QueryKind where
  | learningRate
  | routingPolicy
  | igLossWeight
  | igSoftmaxTemperature
  | igBalanceCoefficient
  deriving DecidableEq, Repr

/-- The step value passed to every schedule / policy query of one training
step, `main.py` lines 76-89: all of them receive the current `global_step`;
the three information-gain schedulers are consulted only when routing is
enabled (else branch, lines 86-89, uses constants instead). -/
def scheduleQueries (useRouting : Bool) (step : ℕ) : List (QueryKind × ℕ) :=
  [(QueryKind.learningRate, step), (QueryKind.routingPolicy, step)] ++
    (if useRouting then
      [(QueryKind.igLossWeight, step), (QueryKind.igSoftmaxTemperature, step),
       (QueryKind.igBalanceCoefficient, step)]
    else [])

/-- Modelled from the spec: `utils.helpers.routing_method` (the module is not
in the snapshot).  A deterministic pure function of the step; with routing
disabled it collapses to the fixed non-adaptive strategy, with routing
enabled the concrete per-step policy is the black box `policy`. -/
def routingMethod (useRouting : Bool) (policy : ℕ → Routing) (step : ℕ) :
    Routing :=
  if useRouting then policy step else Routing.noRouting

/-- A scalar mean metric (`tf.keras.metrics.Mean`): update count and running
total; the reported value is `total / count`. -/
structure MeanMetric where
  count : ℕ
  total : ℚ
  deriving DecidableEq, Repr

/-- One `update_state` call on a `Mean` metric. -/
def MeanMetric.update (m : MeanMetric) (v : ℚ) : MeanMetric :=
  ⟨m.count + 1, m.total + v⟩

/-- The training metrics touched by the loop body (`main.py` lines 158-164);
`CategoricalAccuracy` is a count of correct predictions over examples seen. -/
structure TrainMetrics where
  accuracyCorrect : ℕ
  accuracySeen : ℕ
  totalLoss : MeanMetric
  routing0Loss : MeanMetric
  routing1Loss : MeanMetric
  classificationLoss : MeanMetric
  deriving DecidableEq, Repr

/-- The per-batch quantities produced by the external collaborators during
one training step: the classification loss and the two raw information-gain
loss values from the forward pass, and the batch's correct / total
prediction counts (dataset, model and loss functions are black boxes). -/
structure BatchOutcome where
  classificationLoss : ℚ
  igLoss0 : ℚ
  igLoss1 : ℚ
  correctPredictions : ℕ
  batchSize : ℕ
  deriving DecidableEq, Repr

/-- An error raised by the metrics / experiment-tracking collaborator
(`wandb.log`). -/
inductive LogError where
  | logError
  deriving DecidableEq, Repr

/-- The mutable loop state: model parameters, the global step counter
(line 68) and the running metrics dictionary. -/
structure TrainState (α : Type) where
  params : ModelParams α
  globalStep : ℕ
  metrics : TrainMetrics

/-- Metric updates of one training step, `main.py` lines 158-164. -/
def updateTrainMetrics (m : TrainMetrics) (batch : BatchOutcome)
    (l : LossResult) : TrainMetrics :=
  { accuracyCorrect := m.accuracyCorrect + batch.correctPredictions,
    accuracySeen := m.accuracySeen + batch.batchSize,
    totalLoss := m.totalLoss.update l.lossValue,
    routing0Loss := m.routing0Loss.update l.routing0Loss,
    routing1Loss := m.routing1Loss.update l.routing1Loss,
    classificationLoss := m.classificationLoss.update batch.classificationLoss }

/-- One iteration of the training loop body, `main.py` lines 75-205.
`igWeightSched` is the information-gain weight scheduler (line 81, black
box); `logFn` models `wandb.log`, returning `some e` when the collaborator
raises.  The source wraps the `wandb.log` call (lines 174-205, invoked with
`step = global_step - 1` after the line-172 increment) in no `try`/`except`,
so the body returns the collaborator's error unchanged and a raised error
escapes the loop.  Result components: the state after the body's mutations,
the schedule-query trace, the `apply_gradients` trace, and the escaped
logging error (if any). -/
def trainBatchBody {α : Type} (cfg : Config) (policy : ℕ → Routing)
    (igWeightSched : ℕ → ℚ) (os : OptStep α) (logFn : ℕ → Option LogError)
    (batch : BatchOutcome) (st : TrainState α) :
    TrainState α × List (QueryKind × ℕ) × List ApplyCall × Option LogError :=
  let s := st.globalStep
  let queries := scheduleQueries cfg.useRouting s
  let currentRouting := routingMethod cfg.useRouting policy s
  let igWeight : ℚ := if cfg.useRouting then igWeightSched s else 0
  let losses := tapeLosses cfg.useRouting currentRouting igWeight
      batch.classificationLoss batch.igLoss0 batch.igLoss1
  let pc := applyGradientsPhase os cfg.useRouting
      cfg.decoupleRoutingGradients currentRouting st.params
  let st' : TrainState α :=
    ⟨pc.1, s + 1, updateTrainMetrics st.metrics batch losses⟩
  (st', queries, pc.2, logFn (s + 1 - 1))

/-- Line 68: the loop starts with `global_step = 0`. -/
def initialTrainState {α : Type} (p : ModelParams α) (m : TrainMetrics) :
    TrainState α :=
  ⟨p, 0, m⟩

/-- The training loop over a list of batch outcomes for a run in which every
`wandb.log` call succeeds (on a raised logging error the Python loop aborts,
so the multi-batch run is defined for the non-failing case). -/
def runBatches {α : Type} (cfg : Config) (policy : ℕ → Routing)
    (igWeightSched : ℕ → ℚ) (os : OptStep α) :
    List BatchOutcome → TrainState α → TrainState α
  | [], st => st
  | b :: bs, st =>
      runBatches cfg policy igWeightSched os bs
        (trainBatchBody cfg policy igWeightSched os (fun _ => none) b st).1

/-- A concrete parameter assignment over the trivial subset type, used to
evaluate the embedding at concrete inputs. -/
def unitParams : ModelParams Unit :=
  ⟨(), (), (), (), (), ()⟩

/-- A concrete optimizer step over the trivial subset type. -/
def unitOptStep : OptStep Unit :=
  ⟨id, id, id, id, id, id, id, id, id, id, id, id⟩

/-- Freshly reset training metrics (`reset_metrics`, line 72; modelled from
the spec: `utils.helpers` is not in the snapshot). -/
def freshMetrics : TrainMetrics :=
  ⟨0, 0, ⟨0, 0⟩, ⟨0, 0⟩, ⟨0, 0⟩, ⟨0, 0⟩⟩

/-- Softmax along the last axis (`tf.nn.softmax`), with the exponential as an
abstract strictly-positive map `e`: the real exponential is an external
numeric primitive, and every strictly positive `e` has the algebraic
structure the normalization relies on. -/
def softmaxWith (e : ℚ → ℚ) (v : List ℚ) : List ℚ :=
  v.map (fun x => e x / (v.map e).sum)

/-- A `tf.keras.metrics.MeanTensor`: update count and running element-wise
vector total; the reported value is the element-wise mean. -/
structure MeanTensorState where
  count : ℕ
  totalVec : List ℚ
  deriving DecidableEq, Repr

/-- A freshly constructed / reset `MeanTensor`: no updates, no shape yet. -/
def meanTensorInit : MeanTensorState :=
  ⟨0, []⟩

/-- One `update_state` call on a `MeanTensor`: the first update fixes the
shape, later updates add element-wise. -/
def MeanTensorState.update (m : MeanTensorState) (v : List ℚ) :
    MeanTensorState :=
  ⟨m.count + 1, if m.count = 0 then v else List.zipWith (· + ·) m.totalVec v⟩

/-- The `result()` of a `MeanTensor`: element-wise running mean. -/
def MeanTensorState.result (m : MeanTensorState) : List ℚ :=
  m.totalVec.map (fun t => t / (m.count : ℚ))

/-- The metrics an evaluation pass accumulates (`main.py` lines 225-229 and
266-270): one `MeanTensor` per class for each routing point, plus accuracy
counts. -/
structure EvalMetrics where
  route0 : List MeanTensorState
  route1 : List MeanTensorState
  accuracyCorrect : ℕ
  accuracySeen : ℕ
  deriving DecidableEq, Repr

/-- Freshly reset evaluation metrics (`reset_metrics` at lines 209 and 250;
modelled from the spec: `utils.helpers.reset_metrics` is not in the snapshot,
the spec states the accumulators are "reset at the start of each evaluation
pass"). -/
def resetEvalMetrics (numClasses : ℕ) : EvalMetrics :=
  ⟨List.replicate numClasses meanTensorInit,
   List.replicate numClasses meanTensorInit, 0, 0⟩

/-- Per-example outputs of the evaluation forward pass: one row each of
`route_0`, `route_1` (pre-softmax) and `logits`. -/
structure EvalOut where
  route0Raw : List ℚ
  route1Raw : List ℚ
  logits : List ℚ
  deriving DecidableEq, Repr

/-- Index of the first maximal entry (`tf.argmax`); `0` for an empty row. -/
def argmaxIdx (v : List ℚ) : ℕ :=
  (v.foldl
    (fun acc x =>
      if acc.2.1 < x then (acc.2.2, x, acc.2.2 + 1)
      else (acc.1, acc.2.1, acc.2.2 + 1))
    ((0 : ℕ), v.headD 0, (0 : ℕ))).1

/-- Whether the evaluation pass applies softmax to the route rows:
`current_routing in [Routing.RANDOM_ROUTING, Routing.INFORMATION_GAIN_ROUTING]`
(lines 218-223 and 259-264). -/
def routingAppliesSoftmax : Routing → Bool
  | Routing.randomRouting => true
  | Routing.informationGainRouting => true
  | Routing.noRouting => false

/-- Processing of one evaluation example, `main.py` lines 216-229 restricted
to a single row of the batch: class index from the one-hot label row, branch
rows softmaxed when the strategy is RANDOM or INFORMATION_GAIN, per-class
`MeanTensor` updates and the accuracy update. -/
def evalExampleStep (applySoftmax : Bool) (e : ℚ → ℚ) (yRow : List ℚ)
    (o : EvalOut) (m : EvalMetrics) : EvalMetrics :=
  let c := argmaxIdx yRow
  let r0 := if applySoftmax then softmaxWith e o.route0Raw else o.route0Raw
  let r1 := if applySoftmax then softmaxWith e o.route1Raw else o.route1Raw
  { route0 := m.route0.set c ((m.route0.getD c meanTensorInit).update r0),
    route1 := m.route1.set c ((m.route1.getD c meanTensorInit).update r1),
    accuracyCorrect :=
      m.accuracyCorrect + (if argmaxIdx o.logits = c then 1 else 0),
    accuracySeen := m.accuracySeen + 1 }

/-- The batch loop of an evaluation pass: each batch element is a one-hot
label row paired with an opaque input, and `f` is the forward pass fixed to
this pass's routing strategy and parameters. -/
def evalFold {ι : Type} (applySoftmax : Bool) (e : ℚ → ℚ) (f : ι → EvalOut) :
    List (List (List ℚ × ι)) → EvalMetrics → EvalMetrics
  | [], m => m
  | batch :: bs, m =>
      evalFold applySoftmax e f bs
        (batch.foldl
          (fun m ex => evalExampleStep applySoftmax e ex.1 (f ex.2) m) m)

/-- An evaluation pass: the validation loop (`main.py` lines 208-248) and the
final test loop (lines 250-289) have this same structure.  The routing
strategy is re-derived from the frozen step `global_step - 1` (lines 211 and
252), the accumulators are reset at the start of the pass (the incoming
metrics `mIn` are discarded), and the forward pass runs with
`training=False`, reading but never writing the parameters.  The dashboard
payload construction (lines 235-248 and 276-289) writes no loop state and has
no embedded counterpart.  Returns the training state, which the pass leaves
untouched, and the accumulated metrics. -/
def evalPass {α ι : Type} (useRouting : Bool) (policy : ℕ → Routing)
    (e : ℚ → ℚ) (numClasses : ℕ)
    (modelF : ModelParams α → Routing → ι → EvalOut)
    (batches : List (List (List ℚ × ι))) (st : TrainState α)
    (_mIn : EvalMetrics) : TrainState α × EvalMetrics :=
  let currentRouting := routingMethod useRouting policy (st.globalStep - 1)
  let applySoftmax := routingAppliesSoftmax currentRouting
  let m0 := resetEvalMetrics numClasses
  (st, evalFold applySoftmax e (modelF st.params currentRouting) batches m0)

/-- Number of classes of a one-hot label matrix: width of its first row. -/
def numClassesOf (y : List (List ℚ)) : ℕ :=
  (y.headD []).length

/-- Number of branches of a branch-distribution matrix: width of its first
row. -/
def numBranchesOf (r : List (List ℚ)) : ℕ :=
  (r.headD []).length

/-- Modelled from the spec: the empirical joint probability `p(class c,
branch n)` of the missing `loss.information_gain.information_gain_loss_fn` —
an outer-product-style accumulation of the label and branch-distribution
matrices normalized by the batch size. -/
def batchJoint (y r : List (List ℚ)) (c n : ℕ) : ℚ :=
  (List.zipWith (fun yi ri => yi.getD c 0 * ri.getD n 0) y r).sum
    / (y.length : ℚ)

/-- The flattened empirical joint distribution over class × branch. -/
def jointFlat (y r : List (List ℚ)) : List ℚ :=
  (List.range (numClassesOf y)).flatMap
    (fun c => (List.range (numBranchesOf r)).map (fun n => batchJoint y r c n))

/-- The class marginal `p(class)` of the empirical joint distribution. -/
def classMarginal (y r : List (List ℚ)) : List ℚ :=
  (List.range (numClassesOf y)).map
    (fun c =>
      ((List.range (numBranchesOf r)).map (fun n => batchJoint y r c n)).sum)

/-- The branch marginal `p(branch)` of the empirical joint distribution. -/
def branchMarginal (y r : List (List ℚ)) : List ℚ :=
  (List.range (numBranchesOf r)).map
    (fun n =>
      ((List.range (numClassesOf y)).map (fun c => batchJoint y r c n)).sum)

/-- One clamped `p * log p` term: the probability is clamped to at least
`eps` before the logarithm is taken.  The logarithm `L` is an abstract
partial numeric primitive, defined (at least) on positive arguments; a
`none` result models a non-finite (NaN) float. -/
def clampedPlogP (L : ℚ → Option ℚ) (eps p : ℚ) : Option ℚ :=
  (L (max p eps)).map (fun lg => max p eps * lg)

/-- Entropy `−Σ p·log p` of a probability list with every `p` clamped away
from zero before its logarithm; undefined (`none`) as soon as one logarithm
is. -/
def clampedEntropy (L : ℚ → Option ℚ) (eps : ℚ) : List ℚ → Option ℚ
  | [] => some 0
  | p :: ps =>
      match clampedPlogP L eps p, clampedEntropy L eps ps with
      | some a, some b => some (-a + b)
      | _, _ => none

/-- Modelled from the spec: `loss.information_gain.information_gain_loss_fn`
(the module is not in the snapshot).  Mismatched leading (batch) dimensions
fail fast; otherwise the loss is
`−(H(class) + balance_coefficient · H(branch) − H(class, branch))` over the
batch-estimated joint distribution and its marginals, every probability
clamped to at least `eps` before any logarithm — minimized by
class-informative, balanced branch usage, with the balance coefficient
attenuating the branch-entropy term. -/
def informationGainLossFn (L : ℚ → Option ℚ) (eps balanceCoefficient : ℚ)
    (pCGivenX2d pNGivenX2d : List (List ℚ)) : Option ℚ :=
  if pCGivenX2d.length = pNGivenX2d.length then
    match clampedEntropy L eps (classMarginal pCGivenX2d pNGivenX2d),
          clampedEntropy L eps (branchMarginal pCGivenX2d pNGivenX2d),
          clampedEntropy L eps (jointFlat pCGivenX2d pNGivenX2d) with
    | some hc, some hn, some hcn =>
        some (-(hc + balanceCoefficient * hn - hcn))
    | _, _, _ => none
  else none

/-- Presence of every class in the batch, as a decidable check: each class
column of the one-hot label matrix has a positive entry. -/
def everyClassPresent (y : List (List ℚ)) : Bool :=
  (List.range (numClassesOf y)).all
    (fun c => y.any (fun row => decide (0 < row.getD c 0)))

/-- Invariant of one per-class `MeanTensor` accumulator over an evaluation
pass: either still in its reset state, or its running total has the branch
width `nb` and its entries sum to the update count (each update added a
probability vector summing to 1). -/
def goodAcc (nb : ℕ) (m : MeanTensorState) : Prop :=
  (m.count = 0 ∧ m.totalVec = []) ∨
  (m.totalVec.length = nb ∧ m.totalVec.sum = (m.count : ℚ))

/-- The per-class accumulator invariant for a whole class-indexed accumulator
list (out-of-range classes read as the reset accumulator). -/
def accsGood (nb : ℕ) (accs : List MeanTensorState) : Prop :=
  ∀ c : ℕ, goodAcc nb (accs.getD c meanTensorInit)

/-- C1 (code bug): at the unrecognized `MODEL` value `"VGG16"` the selection
chain binds no model yet raises no error — and no branch of the chain ever
raises — so no configuration error surfaces at the selection site; the
claimed fail-fast `ConfigurationError` is absent because line 34 evaluates
`NotImplementedError()` without `raise`, and the run only dies later with an
unrelated unbound-name error. -/
theorem selectModel_unrecognized_raises_nothing :
    selectModel "VGG16" = ⟨none, false⟩ ∧
    ∀ m : String, (selectModel m).raisedError = false := by
  refine ⟨rfl, fun m => ?_⟩
  unfold selectModel
  repeat' split
  all_goals rfl

/-- C8: the scheduling primitive returns exactly
`initial_value * decay_rate ^ floor(step / decay_step)` for every step (it is
total, so it never raises), at step 0 it returns the initial value, and the
`initial_value=1, decay_rate=1/2, decay_step=2` schedule yields
1, 1, 1/2, 1/2, 1/4 at steps 0-4. -/
theorem stepDecay_value_formula :
    (∀ (i r : ℚ) (d s : ℕ),
        StepDecay.getCurrentValue ⟨i, r, d⟩ s = i * r ^ (s / d)) ∧
    (∀ (i r : ℚ) (d : ℕ), StepDecay.getCurrentValue ⟨i, r, d⟩ 0 = i) ∧
    StepDecay.getCurrentValue ⟨1, 1/2, 2⟩ 0 = 1 ∧
    StepDecay.getCurrentValue ⟨1, 1/2, 2⟩ 1 = 1 ∧
    StepDecay.getCurrentValue ⟨1, 1/2, 2⟩ 2 = 1/2 ∧
    StepDecay.getCurrentValue ⟨1, 1/2, 2⟩ 3 = 1/2 ∧
    StepDecay.getCurrentValue ⟨1, 1/2, 2⟩ 4 = 1/4 := by
  refine ⟨fun i r d s => rfl, fun i r d => ?_, ?_, ?_, ?_, ?_, ?_⟩
  · simp [StepDecay.getCurrentValue]
  all_goals norm_num [StepDecay.getCurrentValue]

/-- C3: in decoupled mode with information-gain routing the dispatch performs
exactly three `apply_gradients` calls (backbone subset, head H_0, head H_1,
in that order); with decoupling off it performs exactly one combined call
over the full trainable set; and the training-step body's call trace is
exactly the dispatch's trace at that step's routing strategy. -/
theorem gradient_application_call_counts :
    (∀ (α : Type) (os : OptStep α) (p : ModelParams α),
        (applyGradientsPhase os true true Routing.informationGainRouting p).2
          = [ApplyCall.backboneSubset, ApplyCall.headH0, ApplyCall.headH1]) ∧
    (∀ (α : Type) (os : OptStep α) (p : ModelParams α) (r : Routing),
        (applyGradientsPhase os true false r p).2 = [ApplyCall.fullModel]) ∧
    (∀ (α : Type) (cfg : Config) (policy : ℕ → Routing) (igW : ℕ → ℚ)
        (os : OptStep α) (logFn : ℕ → Option LogError) (b : BatchOutcome)
        (st : TrainState α),
        (trainBatchBody cfg policy igW os logFn b st).2.2.1 =
          (applyGradientsPhase os cfg.useRouting cfg.decoupleRoutingGradients
            (routingMethod cfg.useRouting policy st.globalStep) st.params).2) := by
  refine ⟨fun α os p => ?_, fun α os p r => ?_, fun _ _ _ _ _ _ _ _ => rfl⟩
  · simp [applyGradientsPhase]
  · simp [applyGradientsPhase]

/-- C4: in decoupled mode each loss's update touches only its own parameter
subset: the classification-loss update leaves both routing heads unchanged,
the `routing_0` update changes only `H_0`, the `routing_1` update changes
only `H_1`, and the decoupled information-gain dispatch is exactly the
composition of these three subset-local updates. -/
theorem decoupled_updates_touch_only_own_subset :
    ∀ (α : Type) (os : OptStep α) (p : ModelParams α),
      ((classificationUpdate os p).H0 = p.H0 ∧
        (classificationUpdate os p).H1 = p.H1) ∧
      ((routing0Update os p).F0 = p.F0 ∧ (routing0Update os p).F1 = p.F1 ∧
        (routing0Update os p).F2 = p.F2 ∧ (routing0Update os p).F3 = p.F3 ∧
        (routing0Update os p).H1 = p.H1) ∧
      ((routing1Update os p).F0 = p.F0 ∧ (routing1Update os p).F1 = p.F1 ∧
        (routing1Update os p).F2 = p.F2 ∧ (routing1Update os p).F3 = p.F3 ∧
        (routing1Update os p).H0 = p.H0) ∧
      (applyGradientsPhase os true true Routing.informationGainRouting p).1 =
        routing1Update os (routing0Update os (classificationUpdate os p)) := by
  intro α os p
  refine ⟨⟨rfl, rfl⟩, ⟨rfl, rfl, rfl, rfl, rfl⟩, ⟨rfl, rfl, rfl, rfl, rfl⟩, ?_⟩
  simp [applyGradientsPhase]

/-- C5: with routing disabled both routing losses are the exact zero value,
no information-gain loss computation is performed, and the total loss equals
the classification loss exactly. -/
theorem routing_disabled_losses_exact_zero :
    ∀ (currentRouting : Routing) (w c a b : ℚ),
      (tapeLosses false currentRouting w c a b).routing0Loss = 0 ∧
      (tapeLosses false currentRouting w c a b).routing1Loss = 0 ∧
      (tapeLosses false currentRouting w c a b).igLossCalls = 0 ∧
      (tapeLosses false currentRouting w c a b).lossValue = c := by
  intro r w c a b
  simp [tapeLosses]

/-- C6: an evaluation pass (the validation and final test loops share this
structure) leaves the training state untouched: the state returned by the
pass is the incoming state, so the global step counter and every trainable
parameter after the pass equal their values before it, and no gradient is
applied. -/
theorem eval_pass_preserves_step_and_params :
    ∀ (α ι : Type) (useRouting : Bool) (policy : ℕ → Routing) (e : ℚ → ℚ)
      (nC : ℕ) (modelF : ModelParams α → Routing → ι → EvalOut)
      (batches : List (List (List ℚ × ι))) (st : TrainState α)
      (mIn : EvalMetrics),
      (evalPass useRouting policy e nC modelF batches st mIn).1 = st ∧
      (evalPass useRouting policy e nC modelF batches st mIn).1.globalStep
        = st.globalStep ∧
      (evalPass useRouting policy e nC modelF batches st mIn).1.params
        = st.params := by
  intros
  exact ⟨rfl, rfl, rfl⟩

/-- C2 counterexample: with a logging collaborator that raises, the training
loop body returns that error — the source wraps `wandb.log` in no
`try`/`except`, so a logging failure is not caught locally and escapes the
step, aborting the loop. -/
theorem log_error_escapes_step :
    (trainBatchBody ⟨true, true⟩ (fun _ => Routing.informationGainRouting)
        (fun _ => 1) unitOptStep (fun _ => some LogError.logError)
        ⟨1, 0, 0, 1, 1⟩ ⟨unitParams, 0, freshMetrics⟩).2.2.2
      = some LogError.logError := rfl

/-- C2 amended: a failure of the metrics collaborator cannot alter the
step's own mutations — gradients are applied and the global step advanced
before `wandb.log` runs, so the post-body state is identical to the
non-failing run's — but the error is not caught: the body propagates
exactly what the collaborator raised at `step = global_step - 1`. -/
theorem log_failure_leaves_step_state_but_escapes :
    ∀ (α : Type) (cfg : Config) (policy : ℕ → Routing) (igW : ℕ → ℚ)
      (os : OptStep α) (logFn : ℕ → Option LogError) (b : BatchOutcome)
      (st : TrainState α),
      (trainBatchBody cfg policy igW os logFn b st).1 =
        (trainBatchBody cfg policy igW os (fun _ => none) b st).1 ∧
      (trainBatchBody cfg policy igW os logFn b st).1.globalStep
        = st.globalStep + 1 ∧
      (trainBatchBody cfg policy igW os logFn b st).2.2.2
        = logFn st.globalStep := by
  intros
  exact ⟨rfl, rfl, rfl⟩

/-- C7: the global step counter starts at 0, each training batch advances it
by exactly one, every schedule/policy query of a step receives that single
step value, and a run over n batches ends with the counter at exactly n —
the counter is monotonically increasing and never decremented or reset. -/
theorem global_step_counter_discipline :
    (∀ (α : Type) (p : ModelParams α) (m : TrainMetrics),
        (initialTrainState p m).globalStep = 0) ∧
    (∀ (α : Type) (cfg : Config) (policy : ℕ → Routing) (igW : ℕ → ℚ)
        (os : OptStep α) (logFn : ℕ → Option LogError) (b : BatchOutcome)
        (st : TrainState α),
        (trainBatchBody cfg policy igW os logFn b st).1.globalStep
          = st.globalStep + 1 ∧
        (trainBatchBody cfg policy igW os logFn b st).2.1
          = scheduleQueries cfg.useRouting st.globalStep) ∧
    (∀ (useRouting : Bool) (step : ℕ),
        (scheduleQueries useRouting step).map Prod.snd =
          List.replicate (scheduleQueries useRouting step).length step) ∧
    (∀ (α : Type) (cfg : Config) (policy : ℕ → Routing) (igW : ℕ → ℚ)
        (os : OptStep α) (bs : List BatchOutcome) (p : ModelParams α)
        (m : TrainMetrics),
        (runBatches cfg policy igW os bs (initialTrainState p m)).globalStep
          = bs.length) := by
  have key : ∀ (α : Type) (cfg : Config) (policy : ℕ → Routing) (igW : ℕ → ℚ)
      (os : OptStep α) (bs : List BatchOutcome) (st : TrainState α),
      (runBatches cfg policy igW os bs st).globalStep
        = st.globalStep + bs.length := by
    intro α cfg policy igW os bs
    induction bs with
    | nil => intro st; simp [runBatches]
    | cons b bs ih =>
        intro st
        rw [runBatches, ih]
        show st.globalStep + 1 + bs.length = st.globalStep + (b :: bs).length
        simp [List.length_cons]
        omega
  refine ⟨fun _ _ _ => rfl, fun _ _ _ _ _ _ _ _ => ⟨rfl, rfl⟩, ?_, ?_⟩
  · intro u step
    cases u <;> rfl
  · intro α cfg policy igW os bs p m
    simpa [initialTrainState] using key α cfg policy igW os bs
      (initialTrainState p m)

/-- Dividing every entry of a list by the same scalar divides its sum. -/
theorem sum_map_div (l : List ℚ) (s : ℚ) :
    (l.map (fun t => t / s)).sum = l.sum / s := by
  induction l with
  | nil => simp
  | cons a l ih => simp [ih, add_div]

/-- Element-wise addition of equal-length lists adds their sums. -/
theorem sum_zipWith_add (l : List ℚ) :
    ∀ r : List ℚ, l.length = r.length →
      (List.zipWith (· + ·) l r).sum = l.sum + r.sum := by
  induction l with
  | nil =>
      intro r h
      cases r with
      | nil => simp
      | cons b r => simp at h
  | cons a l ih =>
      intro r h
      cases r with
      | nil => simp at h
      | cons b r =>
          simp only [List.zipWith_cons_cons, List.sum_cons]
          rw [ih r (by simpa using h)]
          ring

/-- Softmax preserves the row width. -/
theorem softmaxWith_length (e : ℚ → ℚ) (v : List ℚ) :
    (softmaxWith e v).length = v.length := by
  simp [softmaxWith]

/-- For a strictly positive exponential, softmax of a nonempty row is a
probability vector: its entries sum to 1. -/
theorem softmaxWith_sum_one (e : ℚ → ℚ) (v : List ℚ)
    (hE : ∀ x, 0 < e x) (hv : v ≠ []) : (softmaxWith e v).sum = 1 := by
  have hpos : 0 < (v.map e).sum := by
    apply List.sum_pos
    · intro x hx
      obtain ⟨a, _, rfl⟩ := List.mem_map.mp hx
      exact hE a
    · simp [hv]
  unfold softmaxWith
  rw [show (fun x => e x / (v.map e).sum)
        = (fun t => t / (v.map e).sum) ∘ e from rfl,
      ← List.map_map, sum_map_div, div_self (ne_of_gt hpos)]

/-- Clamped entropy is defined whenever the logarithm is defined on positive
arguments and the clamping floor is positive: every value reaching the
logarithm is at least the floor. -/
theorem clampedEntropy_isSome (L : ℚ → Option ℚ) (eps : ℚ)
    (hL : ∀ q : ℚ, 0 < q → (L q).isSome = true) (heps : 0 < eps)
    (ps : List ℚ) : (clampedEntropy L eps ps).isSome = true := by
  induction ps with
  | nil => rfl
  | cons p ps ih =>
      have hpos : 0 < max p eps := lt_of_lt_of_le heps (le_max_right p eps)
      obtain ⟨a, ha⟩ := Option.isSome_iff_exists.mp (hL _ hpos)
      obtain ⟨b, hb⟩ := Option.isSome_iff_exists.mp ih
      simp [clampedEntropy, clampedPlogP, ha, hb]

/-- C9: for label and branch-distribution matrices with matching batch
dimension and every class present, the information-gain loss is defined
(a finite scalar, never NaN) for any logarithm primitive that is defined on
positive arguments and any positive clamping floor — in particular for
batches in which some branch is never selected, since every probability is
clamped away from 0 before any logarithm. -/
theorem information_gain_loss_defined (L : ℚ → Option ℚ) (eps β : ℚ)
    (y r : List (List ℚ))
    (hL : ∀ q : ℚ, 0 < q → (L q).isSome = true)
    (heps : 0 < eps)
    (hdim : y.length = r.length)
    (hclass : everyClassPresent y = true) :
    (informationGainLossFn L eps β y r).isSome = true := by
  obtain ⟨hc, hhc⟩ := Option.isSome_iff_exists.mp
    (clampedEntropy_isSome L eps hL heps (classMarginal y r))
  obtain ⟨hn, hhn⟩ := Option.isSome_iff_exists.mp
    (clampedEntropy_isSome L eps hL heps (branchMarginal y r))
  obtain ⟨hcn, hhcn⟩ := Option.isSome_iff_exists.mp
    (clampedEntropy_isSome L eps hL heps (jointFlat y r))
  simp [informationGainLossFn, hdim, hhc, hhn, hhcn]

/-- C9 witness: a concrete batch of two examples, one per class, in which
branch 1 is never selected (degenerate marginal): the loss is defined. -/
theorem information_gain_loss_defined_witness :
    (informationGainLossFn (fun q => if 0 < q then some 0 else none)
        (1/1000) 1 [[1, 0], [0, 1]] [[1, 0], [1, 0]]).isSome = true :=
  information_gain_loss_defined (fun q => if 0 < q then some 0 else none)
    (1/1000) 1 [[1, 0], [0, 1]] [[1, 0], [1, 0]]
    (fun q hq => by simp [hq]) (by norm_num) rfl (by decide)

/-- A reset accumulator satisfies the per-class invariant. -/
theorem goodAcc_init (nb : ℕ) : goodAcc nb meanTensorInit :=
  Or.inl ⟨rfl, rfl⟩

/-- Updating an accumulator with a width-`nb` probability vector preserves
the invariant. -/
theorem goodAcc_update (nb : ℕ) (m : MeanTensorState) (v : List ℚ)
    (hm : goodAcc nb m) (hv : v.length = nb) (hs : v.sum = 1) :
    goodAcc nb (m.update v) := by
  rcases hm with ⟨h0, _⟩ | ⟨hl, hsum⟩
  · right
    constructor
    · simp [MeanTensorState.update, h0, hv]
    · simp [MeanTensorState.update, h0, hs]
  · by_cases hc : m.count = 0
    · right
      constructor
      · simp [MeanTensorState.update, hc, hv]
      · simp [MeanTensorState.update, hc, hs]
    · right
      constructor
      · simp only [MeanTensorState.update, if_neg hc]
        rw [List.length_zipWith, hl, hv]
        simp
      · simp only [MeanTensorState.update, if_neg hc]
        rw [sum_zipWith_add m.totalVec v (by rw [hl, hv]), hsum, hs]
        push_cast
        ring

/-- All accumulators of a freshly reset class-indexed list satisfy the
invariant. -/
theorem accsGood_reset (nb k : ℕ) :
    accsGood nb (List.replicate k meanTensorInit) := by
  intro c
  rw [List.getD_eq_getElem?_getD, List.getElem?_replicate]
  split
  · exact goodAcc_init nb
  · exact goodAcc_init nb

/-- Updating the accumulator of one class with a width-`nb` probability
vector preserves the invariant for every class. -/
theorem accsGood_set_update (nb : ℕ) (accs : List MeanTensorState) (c : ℕ)
    (v : List ℚ) (h : accsGood nb accs) (hv : v.length = nb)
    (hs : v.sum = 1) :
    accsGood nb
      (accs.set c ((accs.getD c meanTensorInit).update v)) := by
  intro c'
  rw [List.getD_eq_getElem?_getD, List.getElem?_set]
  by_cases hcc : c = c'
  · subst hcc
    by_cases hlen : c < accs.length
    · rw [if_pos rfl, if_pos hlen, Option.getD_some]
      exact goodAcc_update nb _ v (h c) hv hs
    · rw [if_pos rfl, if_neg hlen, Option.getD_none]
      exact goodAcc_init nb
  · rw [if_neg hcc, ← List.getD_eq_getElem?_getD]
    exact h c'

/-- One evaluation example with the softmax branch taken preserves the
invariant on both routing points' accumulators. -/
theorem evalExampleStep_accsGood (e : ℚ → ℚ) (hE : ∀ x, 0 < e x)
    (yRow : List ℚ) (o : EvalOut) (m : EvalMetrics) (nb0 nb1 : ℕ)
    (hnb0 : 0 < nb0) (hnb1 : 0 < nb1)
    (h0 : accsGood nb0 m.route0) (h1 : accsGood nb1 m.route1)
    (hl0 : o.route0Raw.length = nb0) (hl1 : o.route1Raw.length = nb1) :
    accsGood nb0 (evalExampleStep true e yRow o m).route0 ∧
    accsGood nb1 (evalExampleStep true e yRow o m).route1 := by
  have hne0 : o.route0Raw ≠ [] := by
    intro hnil
    rw [hnil] at hl0
    simp at hl0
    omega
  have hne1 : o.route1Raw ≠ [] := by
    intro hnil
    rw [hnil] at hl1
    simp at hl1
    omega
  constructor
  · simp only [evalExampleStep, if_true]
    exact accsGood_set_update nb0 m.route0 _ _ h0
      ((softmaxWith_length e o.route0Raw).trans hl0)
      (softmaxWith_sum_one e o.route0Raw hE hne0)
  · simp only [evalExampleStep, if_true]
    exact accsGood_set_update nb1 m.route1 _ _ h1
      ((softmaxWith_length e o.route1Raw).trans hl1)
      (softmaxWith_sum_one e o.route1Raw hE hne1)

/-- The inner example loop of an evaluation batch preserves the invariant. -/
theorem evalBatchFoldl_accsGood {ι : Type} (e : ℚ → ℚ) (hE : ∀ x, 0 < e x)
    (f : ι → EvalOut) (nb0 nb1 : ℕ) (hnb0 : 0 < nb0) (hnb1 : 0 < nb1) :
    ∀ (batch : List (List ℚ × ι)) (m : EvalMetrics),
      (∀ ex ∈ batch, (f ex.2).route0Raw.length = nb0 ∧
        (f ex.2).route1Raw.length = nb1) →
      accsGood nb0 m.route0 → accsGood nb1 m.route1 →
      accsGood nb0
        ((batch.foldl
          (fun m ex => evalExampleStep true e ex.1 (f ex.2) m) m)).route0 ∧
      accsGood nb1
        ((batch.foldl
          (fun m ex => evalExampleStep true e ex.1 (f ex.2) m) m)).route1 := by
  intro batch
  induction batch with
  | nil => intro m _ h0 h1; exact ⟨h0, h1⟩
  | cons ex batch ih =>
      intro m hlen h0 h1
      have hex := hlen ex (List.mem_cons_self ex batch)
      have step := evalExampleStep_accsGood e hE ex.1 (f ex.2) m nb0 nb1
        hnb0 hnb1 h0 h1 hex.1 hex.2
      exact ih _ (fun x hx => hlen x (List.mem_cons_of_mem ex hx))
        step.1 step.2

/-- The batch loop of an evaluation pass preserves the invariant. -/
theorem evalFold_accsGood {ι : Type} (e : ℚ → ℚ) (hE : ∀ x, 0 < e x)
    (f : ι → EvalOut) (nb0 nb1 : ℕ) (hnb0 : 0 < nb0) (hnb1 : 0 < nb1) :
    ∀ (batches : List (List (List ℚ × ι))) (m : EvalMetrics),
      (∀ b ∈ batches, ∀ ex ∈ b, (f ex.2).route0Raw.length = nb0 ∧
        (f ex.2).route1Raw.length = nb1) →
      accsGood nb0 m.route0 → accsGood nb1 m.route1 →
      accsGood nb0 (evalFold true e f batches m).route0 ∧
      accsGood nb1 (evalFold true e f batches m).route1 := by
  intro batches
  induction batches with
  | nil => intro m _ h0 h1; exact ⟨h0, h1⟩
  | cons batch batches ih =>
      intro m hlen h0 h1
      have inner := evalBatchFoldl_accsGood e hE f nb0 nb1 hnb0 hnb1 batch m
        (hlen batch (List.mem_cons_self batch batches)) h0 h1
      exact ih _ (fun b hb => hlen b (List.mem_cons_of_mem batch hb))
        inner.1 inner.2

/-- An accumulator satisfying the invariant that received at least one
update reports a mean summing to exactly 1. -/
theorem goodAcc_result_sum_one (nb : ℕ) (m : MeanTensorState)
    (h : goodAcc nb m) (hc : m.count ≠ 0) : (m.result).sum = 1 := by
  rcases h with ⟨h0, _⟩ | ⟨_, hsum⟩
  · exact absurd h0 hc
  · rw [MeanTensorState.result, sum_map_div, hsum, div_self]
    exact_mod_cast hc

/-- C10 counterexample: in an evaluation pass whose strategy is the fixed
no-routing one (routing disabled), lines 218-223 skip the softmax and the
raw head outputs are accumulated, so an observed class's accumulated mean
need not be a probability vector: with raw Route0 output `[2, 3]` the
class-0 mean is observed (one update) yet sums to 5, not 1. -/
theorem eval_mean_not_probability_vector :
    (((evalPass false (fun _ => Routing.noRouting) (fun _ => 1) 2
        (fun (_ : ModelParams Unit) _ (_ : Unit) =>
          EvalOut.mk [2, 3] [2, 3] [1, 0])
        [[([1, 0], ())]] ⟨unitParams, 3, freshMetrics⟩
        (resetEvalMetrics 2)).2.route0.getD 0 meanTensorInit).count ≠ 0) ∧
    ((((evalPass false (fun _ => Routing.noRouting) (fun _ => 1) 2
        (fun (_ : ModelParams Unit) _ (_ : Unit) =>
          EvalOut.mk [2, 3] [2, 3] [1, 0])
        [[([1, 0], ())]] ⟨unitParams, 3, freshMetrics⟩
        (resetEvalMetrics 2)).2.route0.getD 0 meanTensorInit).result).sum
      = 5) ∧
    (5 : ℚ) ≠ 1 := by
  refine ⟨by decide, ?_, by norm_num⟩
  show (MeanTensorState.result ⟨1, [2, 3]⟩).sum = 5
  norm_num [MeanTensorState.result]

/-- C10 amended: every evaluation pass resets the per-class accumulators at
its start (the pass result is independent of the incoming metric state), and
whenever the pass's routing strategy applies the softmax normalization
(RANDOM or INFORMATION_GAIN routing) every class observed during the pass
has accumulated Route0 and Route1 mean vectors summing to exactly 1; for
other strategies the raw head outputs are accumulated and need not be
normalized. -/
theorem eval_pass_reset_and_observed_class_means_sum_one
    {α ι : Type} (useRouting : Bool) (policy : ℕ → Routing) (e : ℚ → ℚ)
    (nC : ℕ) (modelF : ModelParams α → Routing → ι → EvalOut)
    (batches : List (List (List ℚ × ι))) (st : TrainState α)
    (mIn : EvalMetrics) (nb0 nb1 : ℕ)
    (hE : ∀ x, 0 < e x)
    (hsm : routingAppliesSoftmax
      (routingMethod useRouting policy (st.globalStep - 1)) = true)
    (hnb0 : 0 < nb0) (hnb1 : 0 < nb1)
    (hlen : ∀ b ∈ batches, ∀ ex ∈ b,
      (modelF st.params (routingMethod useRouting policy (st.globalStep - 1))
        ex.2).route0Raw.length = nb0 ∧
      (modelF st.params (routingMethod useRouting policy (st.globalStep - 1))
        ex.2).route1Raw.length = nb1) :
    (∀ mIn' : EvalMetrics,
        (evalPass useRouting policy e nC modelF batches st mIn).2 =
          (evalPass useRouting policy e nC modelF batches st mIn').2) ∧
    (∀ c : ℕ,
        (((evalPass useRouting policy e nC modelF batches st
              mIn).2.route0.getD c meanTensorInit).count ≠ 0 →
          ((((evalPass useRouting policy e nC modelF batches st
              mIn).2.route0.getD c meanTensorInit).result).sum = 1)) ∧
        (((evalPass useRouting policy e nC modelF batches st
              mIn).2.route1.getD c meanTensorInit).count ≠ 0 →
          ((((evalPass useRouting policy e nC modelF batches st
              mIn).2.route1.getD c meanTensorInit).result).sum = 1))) := by
  have hpass : (evalPass useRouting policy e nC modelF batches st mIn).2
      = evalFold
          (routingAppliesSoftmax
            (routingMethod useRouting policy (st.globalStep - 1))) e
          (modelF st.params
            (routingMethod useRouting policy (st.globalStep - 1)))
          batches (resetEvalMetrics nC) := rfl
  have key := evalFold_accsGood e hE
    (modelF st.params (routingMethod useRouting policy (st.globalStep - 1)))
    nb0 nb1 hnb0 hnb1 batches (resetEvalMetrics nC) hlen
    (accsGood_reset nb0 nC) (accsGood_reset nb1 nC)
  constructor
  · intro mIn'
    rfl
  · intro c
    rw [hpass, hsm]
    exact ⟨fun hcnt => goodAcc_result_sum_one nb0 _ (key.1 c) hcnt,
           fun hcnt => goodAcc_result_sum_one nb1 _ (key.2 c) hcnt⟩

/-- C10 witness: a concrete information-gain-routing evaluation pass over
one example of class 0 with two branches; the accumulated class-0 Route0
mean sums to 1. -/
theorem eval_pass_means_sum_one_witness :
    ((((evalPass true (fun _ => Routing.informationGainRouting) (fun _ => 1)
        2 (fun (_ : ModelParams Unit) _ (_ : Unit) =>
          EvalOut.mk [0, 0] [0, 0] [1, 0])
        [[([1, 0], ())]] ⟨unitParams, 5, freshMetrics⟩
        (resetEvalMetrics 2)).2.route0.getD 0 meanTensorInit).result).sum
      = 1) :=
  ((eval_pass_reset_and_observed_class_means_sum_one true
      (fun _ => Routing.informationGainRouting) (fun _ => 1) 2
      (fun (_ : ModelParams Unit) _ (_ : Unit) =>
        EvalOut.mk [0, 0] [0, 0] [1, 0])
      [[([1, 0], ())]] ⟨unitParams, 5, freshMetrics⟩ (resetEvalMetrics 2) 2 2
      (fun x => by norm_num) rfl (by norm_num) (by norm_num)
      (by decide)).2 0).1 (by decide)
